import Mathlib

/-!
Verification of the stori-challenge transaction pipeline.

Shallow embedding of the Go sources:
* `CSVTransactionLoader` (CSV parsing of transactions) from
  `internal/transactions` — types `Transaction`, `Loader`, functions
  `parseIDOptimized`, `parseDateOptimized`, `parseAmountOptimized`,
  `parseRecord`, `loadLoop`, `loadTransactions`.
* `DefaultSummarizer` from `internal/summaries/summarizer.go` —
  `calculateTotalBalance`, `groupTransactionsByYearAndMonth`,
  `separateDebitsAndCredits`, `calculateAverage`, `CalculateSummary`.
* `DynamoTransactionsRepository` from
  `internal/transactions/dynamo_transactions_repository.go` — `saveBatch`,
  `handleUnprocessedItems` (as `retryUnprocessed`), `Save` (as `SaveRun`).

Modelling conventions:
* Strings are `List Char`; an input file is a `List (List Char)` of its
  newline-separated lines.
* Go `float64` amounts are modelled as exact rationals (`ℚ`): the embedding
  captures the arithmetic structure (parse value, sums, means) and not IEEE-754
  rounding, matching the level at which the specification states its
  arithmetic properties.
* The Go `context.Context` cancellation channel, the I/O buffering
  configuration (`BufferSize`, `ExpectedRecords`) and the pre-allocation hints
  have no observable effect on the parsed values and are not modelled.
* `encoding/csv` is modelled for its configuration in this code
  (`Comma = ','`, `FieldsPerRecord = 3`, `TrimLeadingSpace = true`) on inputs
  whose fields are unquoted (spec §6: plain comma delimiter, exactly 3
  unquoted fields) and lines free of embedded CR/LF: a record is the comma
  split of a line with leading white space of each field dropped, and lines
  that are completely empty are skipped without producing a record, exactly as
  `csv.Reader.Read` does.
-/

-- The Batteries rational arithmetic is `@[irreducible]` only to keep goals
-- tidy; concrete evaluation of the embedded program needs it unfolded.
attribute [local semireducible] Rat.mul Rat.inv Rat.add Rat.sub

deriving instance DecidableEq for Except

/-- Go `unicode.IsSpace` restricted to the Latin-1 range, which covers every
character a CSV line in this pipeline can contain. -/
def goIsSpace (c : Char) : Bool :=
  c == ' ' || c == '\t' || c == '\n' || c == '\x0b' || c == '\x0c' ||
    c == '\r' || c == '\x85' || c == '\xa0'

/-- Numeric value of a decimal digit character. -/
def digitVal (c : Char) : Nat := c.toNat - '0'.toNat

/-- Value of a list of decimal digit characters, most significant first. -/
def digitsToNat (cs : List Char) : Nat :=
  cs.foldl (fun acc c => 10 * acc + digitVal c) 0

/-- Go `strconv.ParseUint(s, 10, 32)` reduced to its success/failure
behaviour: the string must be a non-empty run of decimal digits whose value
fits in 32 bits; on any syntax or range error the Go call returns a non-nil
error, modelled as `none`. -/
def goParseUint32 (cs : List Char) : Option Nat :=
  if cs = [] then none
  else if cs.all (fun c => c.isDigit) then
    if digitsToNat cs < 2 ^ 32 then some (digitsToNat cs) else none
  else none

/-- Leading-white-space trimming used by `csv.Reader` when
`TrimLeadingSpace` is set. -/
def goTrimLeadingSpace (cs : List Char) : List Char := cs.dropWhile goIsSpace

/-- Go `strings.TrimSpace`: drop white space from both ends. -/
def goTrimSpace (cs : List Char) : List Char :=
  ((cs.dropWhile goIsSpace).reverse.dropWhile goIsSpace).reverse

/-- A calendar date as produced by Go `time.Parse` with a pure date layout:
year, month, day (the time of day is always midnight UTC). -/
structure GoDate where
  year : Nat
  month : Nat
  day : Nat
deriving DecidableEq

/-- Go `time` package `getnum` with `fixed = false`, as used for the `1`
(month) and `2` (day) layout chunks: one or two leading decimal digits. -/
def getnum2 : List Char → Option (Nat × List Char)
  | [] => none
  | c1 :: rest =>
    if c1.isDigit then
      match rest with
      | c2 :: rest2 =>
        if c2.isDigit then some (10 * digitVal c1 + digitVal c2, rest2)
        else some (digitVal c1, rest)
      | [] => some (digitVal c1, [])
    else none

/-- Go `time` package handling of the `2006` (four-digit year) layout chunk:
exactly four decimal digits are consumed. -/
def getYear4 : List Char → Option (Nat × List Char)
  | c1 :: c2 :: c3 :: c4 :: rest =>
    if c1.isDigit ∧ c2.isDigit ∧ c3.isDigit ∧ c4.isDigit then
      some (digitsToNat [c1, c2, c3, c4], rest)
    else none
  | _ => none

/-- Gregorian leap year rule, as in Go `time.isLeap`. -/
def isLeap (y : Nat) : Bool := y % 4 == 0 && (y % 100 != 0 || y % 400 == 0)

/-- Days in a month, as in Go `time.daysIn`. -/
def daysIn (m y : Nat) : Nat :=
  if m = 2 then (if isLeap y then 29 else 28)
  else if m = 4 ∨ m = 6 ∨ m = 9 ∨ m = 11 then 30
  else 31

/-- Go `time.Parse("1/2/2006", value)`: month (1-2 digits), literal `/`, day
(1-2 digits), literal `/`, exactly four year digits; any remaining input is an
"extra text" parse error; month and day are range-checked against the
calendar. -/
def goTimeParseMDY (value : List Char) : Option GoDate :=
  match getnum2 value with
  | none => none
  | some (month, r1) =>
    match r1 with
    | '/' :: r2 =>
      match getnum2 r2 with
      | none => none
      | some (day, r3) =>
        match r3 with
        | '/' :: r4 =>
          match getYear4 r4 with
          | none => none
          | some (year, r5) =>
            if r5 = [] then
              if 1 ≤ month ∧ month ≤ 12 ∧ 1 ≤ day ∧ day ≤ daysIn month year
              then some ⟨year, month, day⟩
              else none
            else none
        | _ => none
    | _ => none

/-- One ledger entry (`Transaction` in the Go source). The Go `uint` id is a
`Nat` (the parser bounds it to 32 bits), the `time.Time` date is a `GoDate`,
the `float64` amount is an exact rational. `accountID` is attached by the
coordinator after parsing; the parser always leaves it empty. -/
structure Transaction where
  id : Nat
  date : GoDate
  amount : ℚ
  accountID : String
deriving DecidableEq

/-- The `CSVTransactionLoader` state that affects parsed values: the year
captured when the instance was constructed. The layout `"1/2/2006"` and the
CSV configuration (`FieldsPerRecord = 3`, `TrimLeadingSpace`) are fixed. -/
structure Loader where
  currentYear : Nat

/-- `parseIDOptimized`: reject empty, try `ParseUint` on the raw string, and
only on failure retry on the `TrimSpace`d string. -/
def parseIDOptimized (idStr : List Char) : Option Nat :=
  if idStr = [] then none
  else
    match goParseUint32 idStr with
    | some id => some id
    | none =>
      if goTrimSpace idStr = [] then none
      else goParseUint32 (goTrimSpace idStr)

/-- `parseDateOptimized`: reject empty, then append `'/' ++ Itoa currentYear`
to the raw date string and parse the result with the cached `"1/2/2006"`
layout. (`Nat.toDigits 10` is Go `strconv.Itoa` for the non-negative years
involved.) -/
def parseDateOptimized (currentYear : Nat) (dateStr : List Char) :
    Option GoDate :=
  if dateStr = [] then none
  else goTimeParseMDY (dateStr ++ '/' :: Nat.toDigits 10 currentYear)

/-- Decimal fragment of Go `strconv.ParseFloat(s, 64)`, with the value kept
exact in `ℚ`: optional sign, mantissa digits with an optional fraction (at
least one digit overall), optional `e`/`E` exponent with optional sign and at
least one digit. The special forms (`inf`, `nan`, hex mantissas, underscore
digit separators) are outside the input class of this pipeline and are not
modelled. -/
def goParseFloatDec (cs : List Char) : Option ℚ :=
  let signAndRest : ℚ × List Char :=
    match cs with
    | '+' :: rest => (1, rest)
    | '-' :: rest => (-1, rest)
    | _ => (1, cs)
  let sign := signAndRest.1
  let cs1 := signAndRest.2
  let intPart := cs1.takeWhile (fun c => c.isDigit)
  let cs2 := cs1.dropWhile (fun c => c.isDigit)
  let fracAndRest : List Char × List Char :=
    match cs2 with
    | '.' :: rest => (rest.takeWhile (fun c => c.isDigit),
                      rest.dropWhile (fun c => c.isDigit))
    | _ => ([], cs2)
  let fracPart := fracAndRest.1
  let cs3 := fracAndRest.2
  if intPart = [] ∧ fracPart = [] then none
  else
    let mantissa : ℚ :=
      (digitsToNat (intPart ++ fracPart) : ℚ) / (10 : ℚ) ^ fracPart.length
    match cs3 with
    | [] => some (sign * mantissa)
    | e :: rest =>
      if e = 'e' ∨ e = 'E' then
        let esignAndRest : Int × List Char :=
          match rest with
          | '+' :: r => (1, r)
          | '-' :: r => (-1, r)
          | _ => (1, rest)
        let edigits := esignAndRest.2.takeWhile (fun c => c.isDigit)
        let erest := esignAndRest.2.dropWhile (fun c => c.isDigit)
        if edigits = [] ∨ erest ≠ [] then none
        else some (sign * mantissa *
          (10 : ℚ) ^ (esignAndRest.1 * (digitsToNat edigits : Int)))
      else none

/-- `parseAmountOptimized`: reject empty; a leading `+` is stripped before
`ParseFloat`; otherwise the raw string goes to `ParseFloat` directly (the
negative-sign fast path and the default path call it on the same string). -/
def parseAmountOptimized (amountStr : List Char) : Option ℚ :=
  match amountStr with
  | [] => none
  | c :: rest =>
    if c ≠ '+' ∧ c ≠ '-' then goParseFloatDec (c :: rest)
    else if c = '+' then goParseFloatDec rest
    else goParseFloatDec (c :: rest)

/-- Which field of a record failed validation in `parseRecord`. -/
inductive FieldError where
  | fieldCount
  | id
  | date
  | amount
deriving DecidableEq

/-- The error classes of `LoadTransactions`: header read failure, a CSV
reader error at a line (wrong field count), or a record validation error at a
line. -/
inductive LoadError where
  | header
  | csv (line : Nat)
  | record (line : Nat) (fe : FieldError)
deriving DecidableEq

/-- The line number carried by a `LoadTransactions` error, when it has one. -/
def errorLine : LoadError → Option Nat
  | .header => none
  | .csv n => some n
  | .record n _ => some n

/-- Comma split of one line, as `csv.Reader` does for unquoted fields. -/
def splitComma : List Char → List (List Char)
  | [] => [[]]
  | c :: rest =>
    if c = ',' then [] :: splitComma rest
    else
      match splitComma rest with
      | [] => [[c]]
      | f :: fs => (c :: f) :: fs

/-- The record a `csv.Reader` with `TrimLeadingSpace` yields for one
non-empty line: comma split with the leading white space of each field
dropped. -/
def readFields (line : List Char) : List (List Char) :=
  (splitComma line).map goTrimLeadingSpace

/-- `parseRecord`: explicit 3-field check, then ID, date and amount parsed in
order; the first failing field aborts. -/
def parseRecord (loader : Loader) (record : List (List Char)) :
    Except FieldError Transaction :=
  match record with
  | [idStr, dateStr, amountStr] =>
    match parseIDOptimized idStr with
    | none => .error .id
    | some id =>
      match parseDateOptimized loader.currentYear dateStr with
      | none => .error .date
      | some date =>
        match parseAmountOptimized amountStr with
        | none => .error .amount
        | some amount => .ok ⟨id, date, amount, ""⟩
  | _ => .error .fieldCount

/-- The record-reading loop of `LoadTransactions`: `lineNumber` starts at 2
and increments once per record the CSV reader returns; completely empty lines
are skipped by `csv.Reader.Read` without touching the counter; a wrong field
count is a CSV parsing error and a failing field a record validation error,
each aborting with the current counter value; on success the record's
transaction is appended. -/
def loadLoop (loader : Loader) : List (List Char) → Nat →
    Except LoadError (List Transaction)
  | [], _ => .ok []
  | line :: rest, lineNumber =>
    if line = [] then loadLoop loader rest lineNumber
    else
      let fields := readFields line
      if fields.length ≠ 3 then .error (.csv lineNumber)
      else
        match parseRecord loader fields with
        | .error fe => .error (.record lineNumber fe)
        | .ok t =>
          match loadLoop loader rest (lineNumber + 1) with
          | .error e => .error e
          | .ok ts => .ok (t :: ts)

/-- `LoadTransactions` over the lines of the input: the first record the CSV
reader yields is the header, discarded unconditionally but still subject to
the reader's 3-field validation (`FieldsPerRecord` is set before the header
read); a missing or malformed header fails the load; then the data loop runs
from line number 2. On success Go returns a slice created by `make` (never
nil), modelled by `.ok` carrying the — possibly empty — list. -/
def loadTransactions (loader : Loader) (lines : List (List Char)) :
    Except LoadError (List Transaction) :=
  match lines.dropWhile (fun l => l = []) with
  | [] => .error .header
  | header :: rest =>
    if (readFields header).length ≠ 3 then .error .header
    else loadLoop loader rest 2

/-- The transaction a single data line yields, if any: `none` for a blank
(skipped) line, a wrong field count, or any field validation failure. -/
def parseLineTx (loader : Loader) (line : List Char) : Option Transaction :=
  if line = [] then none
  else
    let fields := readFields line
    if fields.length ≠ 3 then none
    else (parseRecord loader fields).toOption

/-- 1-based physical line number of the first data line (header excluded)
that is non-blank and fails to parse. -/
def firstInvalidDataLine (loader : Loader) (lines : List (List Char)) :
    Option Nat :=
  ((lines.drop 1).findIdx? (fun l => l ≠ [] && (parseLineTx loader l).isNone)
    ).map (fun i => i + 2)

/-! ## Aggregator: `DefaultSummarizer` (internal/summaries/summarizer.go) -/

/-- Aggregated statistics for one (year, month) bucket (`MonthlySummary` in
the Go source). -/
structure MonthlySummary where
  transactionCount : Nat
  averageDebit : ℚ
  averageCredit : ℚ
deriving DecidableEq

/-- The summary (`Summary` in the Go source). The nested Go maps
`YearlyData = map[year]map[month]MonthlySummary` are modelled by their lookup
function: `yearlyData y m = none` exactly when the key pair is absent. -/
structure Summary where
  totalBalance : ℚ
  yearlyData : Nat → Nat → Option MonthlySummary

/-- `calculateTotalBalance`: a single accumulation loop over the
transactions in the order given. -/
def calculateTotalBalance (txns : List Transaction) : ℚ :=
  txns.foldl (fun total txn => total + txn.amount) 0

/-- `groupTransactionsByYearAndMonth`: one pass appending each transaction to
the bucket of its date's (year, month) key; the nested maps are modelled by
the bucket-lookup function they define (`[]` for an absent key). -/
def groupTransactionsByYearAndMonth (txns : List Transaction) :
    Nat → Nat → List Transaction :=
  txns.foldl
    (fun groups txn => fun y m =>
      if txn.date.year = y ∧ txn.date.month = m then groups y m ++ [txn]
      else groups y m)
    (fun _ _ => [])

/-- `separateDebitsAndCredits`: one pass splitting amounts into the
strictly-negative and strictly-positive lists; zero amounts go to neither. -/
def separateDebitsAndCredits (txns : List Transaction) : List ℚ × List ℚ :=
  txns.foldl
    (fun acc txn =>
      if txn.amount < 0 then (acc.1 ++ [txn.amount], acc.2)
      else if txn.amount > 0 then (acc.1, acc.2 ++ [txn.amount])
      else acc)
    ([], [])

/-- `calculateAverage`: 0 for an empty list, otherwise the accumulated sum
divided by the length. -/
def calculateAverage (values : List ℚ) : ℚ :=
  if values.length = 0 then 0
  else values.foldl (fun sum value => sum + value) 0 / (values.length : ℚ)

/-- `computeMonthlyDataFromYearlyGroups`: for every key pair present in the
grouped maps (a non-empty bucket), the count and the two averages. -/
def computeMonthlyDataFromYearlyGroups
    (yearlyGroups : Nat → Nat → List Transaction) :
    Nat → Nat → Option MonthlySummary :=
  fun y m =>
    match yearlyGroups y m with
    | [] => none
    | monthTxns@(_ :: _) =>
      let sep := separateDebitsAndCredits monthTxns
      some ⟨monthTxns.length, calculateAverage sep.1, calculateAverage sep.2⟩

/-- `calculateYearlyData`: group, then aggregate each group. -/
def calculateYearlyData (txns : List Transaction) :
    Nat → Nat → Option MonthlySummary :=
  computeMonthlyDataFromYearlyGroups (groupTransactionsByYearAndMonth txns)

/-- `CalculateSummary`: the empty input short-circuits to balance 0 with an
empty (`make`d but unpopulated) mapping; otherwise total balance and grouped
monthly data are computed. -/
def CalculateSummary (txns : List Transaction) : Summary :=
  if txns.length = 0 then ⟨0, fun _ _ => none⟩
  else ⟨calculateTotalBalance txns, calculateYearlyData txns⟩

/-! ## BatchPersister: `DynamoTransactionsRepository`
(internal/transactions/dynamo_transactions_repository.go)

The DynamoDB client is modelled as a deterministic response oracle: call
number `n` (0-based, counted across one `Save` call) submitting a batch of
items receives back the sub-batch the store left unprocessed. An item is
identified with its transaction: the per-item marshalling (fresh UUID v4
primary key, ISO-8601 date string, numeric amount, account id) renames fields
but keeps the items in order and never fails on the data reaching it, so the
submitted `[]types.WriteRequest` is in bijection with the submitted
transaction slice. Hard client errors (`BatchWriteItem` returning `err`) are
not modelled: every claim here is about the unprocessed-items protocol. -/

/-- The batch-write collaborator: for each call (indexed in submission
order), the subset of the submitted items it failed to process. -/
structure Store where
  respond : Nat → List Transaction → List Transaction

/-- The error of a failed `Save` (`fmt.Errorf` values in the Go source):
either the terminal unprocessed-items report, or that error wrapped with the
start index of the failing batch. -/
inductive PersistError where
  | unprocessed (retries : Nat) (count : Nat)
  | batchFailed (startIdx : Nat) (inner : PersistError)
deriving DecidableEq

/-- The unwritten-item count an error reports (`%d items remain
unprocessed`), unchanged by the `Save`-level wrapping. -/
def reportedUnwritten : PersistError → Nat
  | .unprocessed _ count => count
  | .batchFailed _ inner => reportedUnwritten inner

/-- The retry loop of `handleUnprocessedItems`: while items remain
unprocessed and retries are left (`maxRetries = 3`, here the remaining
`fuel`), resubmit exactly the unprocessed items and continue with the store's
answer. Returns the items still unprocessed at exit together with the list of
submissions made. -/
def retryUnprocessed (store : Store) :
    Nat → Nat → List Transaction → List Transaction × List (List Transaction)
  | _, 0, unprocessedItems => (unprocessedItems, [])
  | callIdx, fuel + 1, unprocessedItems =>
    if unprocessedItems = [] then (unprocessedItems, [])
    else
      let result := store.respond callIdx unprocessedItems
      let next := retryUnprocessed store (callIdx + 1) fuel result
      (next.1, unprocessedItems :: next.2)

/-- `handleUnprocessedItems`: run the retry loop with budget 3; if items
remain afterwards, fail reporting their count. -/
def handleUnprocessedItems (store : Store) (callIdx : Nat)
    (unprocessedItems : List Transaction) :
    Except PersistError Unit × List (List Transaction) :=
  let run := retryUnprocessed store callIdx 3 unprocessedItems
  (if run.1 = [] then .ok () else .error (.unprocessed 3 run.1.length),
   run.2)

/-- `saveBatch`: submit the whole batch once; if the store reports
unprocessed items, hand exactly those to `handleUnprocessedItems`. The second
component is the list of submissions made for this batch, in order. -/
def saveBatch (store : Store) (callIdx : Nat) (batch : List Transaction) :
    Except PersistError Unit × List (List Transaction) :=
  let result := store.respond callIdx batch
  if result = [] then (.ok (), [batch])
  else
    let handled := handleUnprocessedItems store (callIdx + 1) result
    (handled.1, batch :: handled.2)

/-- The batching loop of `Save`: slice off the next `batchSize = 25` items,
save that batch, and stop at the first failing batch, wrapping its error with
the batch's start index. `fuel` only bounds the number of loop iterations
(the Go `for` needs none); since every iteration consumes at least one
transaction, any `fuel ≥ ` the remaining length is exact. -/
def saveLoop (store : Store) :
    Nat → Nat → Nat → List Transaction →
    Except PersistError Unit × List (List Transaction)
  | _, _, _, [] => (.ok (), [])
  | 0, _, _, _ :: _ => (.ok (), [])
  | fuel + 1, callIdx, startIdx, rest@(_ :: _) =>
    let batch := rest.take 25
    let saved := saveBatch store callIdx batch
    match saved.1 with
    | .error e => (.error (.batchFailed startIdx e), saved.2)
    | .ok _ =>
      let tail :=
        saveLoop store fuel (callIdx + saved.2.length) (startIdx + 25)
          (rest.drop 25)
      (tail.1, saved.2 ++ tail.2)

/-- `Save`: nothing to do for an empty list (no store call at all), otherwise
run the batching loop. Returns the result together with every submission made
to the store, in order. -/
def SaveRun (store : Store) (transactions : List Transaction) :
    Except PersistError Unit × List (List Transaction) :=
  if transactions.length = 0 then (.ok (), [])
  else saveLoop store transactions.length 0 0 transactions

/-! ## Claim-side (specification) vocabulary

The following definitions restate the spec's wording, to be compared with
the source-side functions above. -/

/-- Claim-side: the transactions dated in the (year, month) bucket. -/
def monthBucket (txns : List Transaction) (y m : Nat) : List Transaction :=
  txns.filter (fun t => t.date.year = y ∧ t.date.month = m)

/-- Claim-side: the strictly negative amounts of a transaction list, in
order. -/
def negAmounts (txns : List Transaction) : List ℚ :=
  (txns.filter (fun t => t.amount < 0)).map (fun t => t.amount)

/-- Claim-side: the strictly positive amounts of a transaction list, in
order. -/
def posAmounts (txns : List Transaction) : List ℚ :=
  (txns.filter (fun t => t.amount > 0)).map (fun t => t.amount)

/-- Claim-side: arithmetic mean, 0 for the empty set. -/
def meanOrZero (values : List ℚ) : ℚ :=
  if values = [] then 0 else values.sum / (values.length : ℚ)

/-- Claim-side: the submissions `saveBatch` is expected to make for one
batch: the batch itself, then — while the previous response reported
unprocessed items and at most 3 times — exactly that unprocessed subset. -/
def expectedResubmissions (store : Store) (batch : List Transaction) :
    List (List Transaction) :=
  let r0 := store.respond 0 batch
  let r1 := store.respond 1 r0
  let r2 := store.respond 2 r1
  if r0 = [] then [batch]
  else if r1 = [] then [batch, r0]
  else if r2 = [] then [batch, r0, r1]
  else [batch, r0, r1, r2]


/-! ## Helper lemmas -/

theorem foldl_add_amount (txns : List Transaction) (a : ℚ) :
    txns.foldl (fun total txn => total + txn.amount) a
      = a + (txns.map (fun t => t.amount)).sum := by
  induction txns generalizing a with
  | nil => simp
  | cons t ts ih => simp [ih, add_assoc]

theorem foldl_add_rat (values : List ℚ) (a : ℚ) :
    values.foldl (fun sum value => sum + value) a = a + values.sum := by
  induction values generalizing a with
  | nil => simp
  | cons v vs ih => simp [ih, add_assoc]

theorem calculateAverage_eq_meanOrZero (values : List ℚ) :
    calculateAverage values = meanOrZero values := by
  unfold calculateAverage meanOrZero
  rcases values with _ | ⟨v, vs⟩
  · simp
  · simp [foldl_add_rat]

theorem group_foldl_eq_bucket (txns : List Transaction)
    (g : Nat → Nat → List Transaction) (y m : Nat) :
    (txns.foldl
      (fun groups txn => fun y m =>
        if txn.date.year = y ∧ txn.date.month = m then groups y m ++ [txn]
        else groups y m)
      g) y m = g y m ++ monthBucket txns y m := by
  induction txns generalizing g with
  | nil => simp [monthBucket]
  | cons t ts ih =>
    simp only [List.foldl_cons, ih, monthBucket, List.filter_cons]
    by_cases h : t.date.year = y ∧ t.date.month = m
    · simp [h, monthBucket]
    · simp [h, monthBucket]

theorem group_eq_bucket (txns : List Transaction) (y m : Nat) :
    groupTransactionsByYearAndMonth txns y m = monthBucket txns y m := by
  unfold groupTransactionsByYearAndMonth
  simpa using group_foldl_eq_bucket txns (fun _ _ => []) y m

theorem separate_foldl_eq (txns : List Transaction) (a b : List ℚ) :
    txns.foldl
      (fun acc txn =>
        if txn.amount < 0 then (acc.1 ++ [txn.amount], acc.2)
        else if txn.amount > 0 then (acc.1, acc.2 ++ [txn.amount])
        else acc)
      (a, b) = (a ++ negAmounts txns, b ++ posAmounts txns) := by
  induction txns generalizing a b with
  | nil => simp [negAmounts, posAmounts]
  | cons t ts ih =>
    simp only [List.foldl_cons, negAmounts, posAmounts, List.filter_cons]
    rcases lt_trichotomy t.amount 0 with h | h | h
    · simp [h, not_lt_of_lt h, ih, negAmounts, posAmounts]
    · simp [h, ih, negAmounts, posAmounts]
    · simp [h, not_lt_of_lt h, ih, negAmounts, posAmounts]

theorem separateDebitsAndCredits_eq (txns : List Transaction) :
    separateDebitsAndCredits txns = (negAmounts txns, posAmounts txns) := by
  unfold separateDebitsAndCredits
  simpa using separate_foldl_eq txns [] []

/-! ## Claims about the Aggregator -/

/-- C6. For every transaction list, `CalculateSummary`'s total balance is the
sequential left-to-right sum of the amounts in the order given (exact in the
rational model, where the accumulation loop and the abstract sum coincide);
the empty input yields balance 0 and an empty — not zero-filled — mapping. -/
theorem c6_total_balance_sequential_sum (txns : List Transaction) :
    (CalculateSummary txns).totalBalance = (txns.map (fun t => t.amount)).sum
    ∧ (CalculateSummary []).totalBalance = 0
    ∧ (∀ y m, (CalculateSummary []).yearlyData y m = none) := by
  refine ⟨?_, rfl, fun y m => rfl⟩
  rcases txns with _ | ⟨t, ts⟩
  · rfl
  · show calculateTotalBalance (t :: ts) = _
    unfold calculateTotalBalance
    simpa using foldl_add_amount (t :: ts) 0

/-- C5. Every (year, month) entry present in the computed summary counts all
transactions dated in that bucket, and averages exactly the strictly negative
(resp. strictly positive) amounts of the bucket, with 0 for an empty
averaging set; zero amounts are counted but enter neither averaging set. -/
theorem c5_monthly_bucket_stats (txns : List Transaction) (y m : Nat)
    (s : MonthlySummary)
    (h : (CalculateSummary txns).yearlyData y m = some s) :
    s.transactionCount = (monthBucket txns y m).length
    ∧ s.averageDebit = meanOrZero (negAmounts (monthBucket txns y m))
    ∧ s.averageCredit = meanOrZero (posAmounts (monthBucket txns y m)) := by
  unfold CalculateSummary at h
  rcases txns with _ | ⟨t, ts⟩
  · simp at h
  · simp only [List.length_cons, if_neg (Nat.succ_ne_zero ts.length)] at h
    unfold calculateYearlyData computeMonthlyDataFromYearlyGroups at h
    rw [group_eq_bucket] at h
    rcases hb : monthBucket (t :: ts) y m with _ | ⟨b, bs⟩
    · rw [hb] at h; simp at h
    · rw [hb] at h
      simp only [Option.some_inj] at h
      subst h
      simp [separateDebitsAndCredits_eq, calculateAverage_eq_meanOrZero, ← hb]

/-- Witness for C5: the specification §8 example — four January 2024
transactions with amounts −150, 900.5, 99.5, −50 — has count 4, average
debit −100 and average credit 500 in its bucket. -/
theorem c5_monthly_bucket_stats_witness :
    (MonthlySummary.mk 4 (-100) 500).transactionCount
        = (monthBucket [⟨1, ⟨2024, 1, 1⟩, -150, ""⟩, ⟨2, ⟨2024, 1, 3⟩, 1801/2, ""⟩,
            ⟨3, ⟨2024, 1, 15⟩, 199/2, ""⟩, ⟨4, ⟨2024, 1, 20⟩, -50, ""⟩] 2024 1).length
    ∧ (MonthlySummary.mk 4 (-100) 500).averageDebit
        = meanOrZero (negAmounts (monthBucket [⟨1, ⟨2024, 1, 1⟩, -150, ""⟩,
            ⟨2, ⟨2024, 1, 3⟩, 1801/2, ""⟩, ⟨3, ⟨2024, 1, 15⟩, 199/2, ""⟩,
            ⟨4, ⟨2024, 1, 20⟩, -50, ""⟩] 2024 1))
    ∧ (MonthlySummary.mk 4 (-100) 500).averageCredit
        = meanOrZero (posAmounts (monthBucket [⟨1, ⟨2024, 1, 1⟩, -150, ""⟩,
            ⟨2, ⟨2024, 1, 3⟩, 1801/2, ""⟩, ⟨3, ⟨2024, 1, 15⟩, 199/2, ""⟩,
            ⟨4, ⟨2024, 1, 20⟩, -50, ""⟩] 2024 1)) :=
  c5_monthly_bucket_stats
    [⟨1, ⟨2024, 1, 1⟩, -150, ""⟩, ⟨2, ⟨2024, 1, 3⟩, 1801/2, ""⟩,
     ⟨3, ⟨2024, 1, 15⟩, 199/2, ""⟩, ⟨4, ⟨2024, 1, 20⟩, -50, ""⟩]
    2024 1 ⟨4, -100, 500⟩ (by decide)

/-! ## Claims about the Parser -/

theorem isDigit_not_space (c : Char) (h : c.isDigit = true) :
    goIsSpace c = false := by
  have ne : ∀ d : Char, d.isDigit = false → c ≠ d := by
    intro d hd e
    rw [e, hd] at h
    exact Bool.false_ne_true h
  simp only [goIsSpace, Bool.or_eq_false_iff, beq_eq_false_iff_ne]
  exact ⟨⟨⟨⟨⟨⟨⟨ne ' ' (by decide), ne '\t' (by decide)⟩, ne '\n' (by decide)⟩,
    ne '\x0b' (by decide)⟩, ne '\x0c' (by decide)⟩, ne '\r' (by decide)⟩,
    ne '\x85' (by decide)⟩, ne '\xa0' (by decide)⟩

theorem dropWhile_space_of_digits (cs : List Char)
    (h : cs.all (fun c => c.isDigit) = true) :
    cs.dropWhile goIsSpace = cs := by
  rcases cs with _ | ⟨c, rest⟩
  · rfl
  · simp only [List.all_cons, Bool.and_eq_true] at h
    simp [List.dropWhile_cons, isDigit_not_space c h.1]

theorem goTrimSpace_of_digits (cs : List Char)
    (h : cs.all (fun c => c.isDigit) = true) :
    goTrimSpace cs = cs := by
  unfold goTrimSpace
  rw [dropWhile_space_of_digits cs h, dropWhile_space_of_digits _ (by
    simpa using h), List.reverse_reverse]

/-- C10. An id field that is a pure digit string denoting a value above
`2^32 − 1` always fails `parseIDOptimized` (the `ParseUint` bit size is 32),
and such a row fails the whole load, while the maximal value `4294967295` is
accepted — exactly as the repository's own `it should handle large
transaction IDs` test expects. -/
theorem c10_id_bounded_32_bits :
    (∀ s : List Char, s ≠ [] → s.all (fun c => c.isDigit) = true →
        2 ^ 32 ≤ digitsToNat s → parseIDOptimized s = none)
    ∧ loadTransactions ⟨2025⟩
        ["ID,Date,Transaction".data, "4294967296,1/1,100".data]
        = .error (.record 2 .id)
    ∧ loadTransactions ⟨2025⟩
        ["ID,Date,Transaction".data, "4294967295,1/1,100".data]
        = .ok [⟨4294967295, ⟨2025, 1, 1⟩, 100, ""⟩] := by
  refine ⟨?_, by decide, by decide⟩
  intro s hne hdig hge
  have hparse : goParseUint32 s = none := by
    unfold goParseUint32
    rw [if_neg hne, if_pos hdig, if_neg (not_lt_of_le hge)]
  unfold parseIDOptimized
  rw [if_neg hne, hparse]
  simp only [goTrimSpace_of_digits s hdig]
  rw [if_neg hne, hparse]

/-- Witness for C10: the first conjunct applied to the concrete overflowing
id `4294967296`. -/
theorem c10_id_bounded_32_bits_witness :
    parseIDOptimized "4294967296".data = none :=
  c10_id_bounded_32_bits.1 "4294967296".data (by decide) (by decide)
    (by decide)

/-- C1 (code bug). The claim — and the repository's own tests `it should
successfully load transactions with full year dates` and `it should handle
mixed date formats` — say a date in `M/D/YYYY` form parses to (YYYY, M, D).
The code instead appends `/currentYear` to every date string before parsing
with layout `1/2/2006`, so `1/5/2022` becomes `1/5/2022/2025`, the trailing
`/2025` is rejected by `time.Parse` as extra text, and the whole load fails;
only the `M/D` form is actually accepted. -/
theorem c1_full_year_date_rejected :
    parseDateOptimized 2025 "1/5/2022".data = none
    ∧ loadTransactions ⟨2025⟩
        ["ID,Date,Transaction".data, "1,1/5/2022,+1250.0".data]
        = .error (.record 2 .date)
    ∧ loadTransactions ⟨2025⟩
        ["ID,Date,Transaction".data, "1,1/5,+1250.0".data]
        = .ok [⟨1, ⟨2025, 1, 5⟩, 1250, ""⟩] := by
  refine ⟨by decide, by decide, by decide⟩

/-- C2 (counterexample). The data row `0,1/1,100` loads successfully and
produces a `Transaction` whose id is 0: `ParseUint` accepts the digit string
`"0"`, so the parser does emit a zero-id transaction, contrary to the
claimed invariant. -/
theorem c2_zero_id_emitted :
    loadTransactions ⟨2025⟩ ["ID,Date,Transaction".data, "0,1/1,100".data]
      = .ok [⟨0, ⟨2025, 1, 1⟩, 100, ""⟩] := by decide

theorem goParseUint32_some_lt (cs : List Char) (v : Nat)
    (h : goParseUint32 cs = some v) : v < 2 ^ 32 := by
  unfold goParseUint32 at h
  split at h
  · simp at h
  · split at h
    · split at h
      · simp only [Option.some_inj] at h
        subst h
        assumption
      · simp at h
    · simp at h

theorem parseIDOptimized_some_lt (s : List Char) (v : Nat)
    (h : parseIDOptimized s = some v) : v < 2 ^ 32 := by
  unfold parseIDOptimized at h
  split at h
  · simp at h
  · split at h
    · rename_i id hid
      simp only [Option.some_inj] at h
      subst h
      exact goParseUint32_some_lt _ _ hid
    · split at h
      · simp at h
      · exact goParseUint32_some_lt _ _ h

theorem goTimeParseMDY_some_valid (value : List Char) (d : GoDate)
    (h : goTimeParseMDY value = some d) :
    1 ≤ d.month ∧ d.month ≤ 12
      ∧ 1 ≤ d.day ∧ d.day ≤ daysIn d.month d.year := by
  unfold goTimeParseMDY at h
  split at h
  · simp at h
  · split at h
    · split at h
      · simp at h
      · split at h
        · split at h
          · simp at h
          · split at h
            · split at h
              · rename_i month r1 hg1 r2 day r3 hg2 r4 year r5 hy hr5 hrange
                simp only [Option.some_inj] at h
                subst h
                simpa using hrange
              · simp at h
            · simp at h
        · simp at h
    · simp at h

theorem parseDateOptimized_some_valid (currentYear : Nat)
    (dateStr : List Char) (d : GoDate)
    (h : parseDateOptimized currentYear dateStr = some d) :
    1 ≤ d.month ∧ d.month ≤ 12
      ∧ 1 ≤ d.day ∧ d.day ≤ daysIn d.month d.year := by
  unfold parseDateOptimized at h
  split at h
  · simp at h
  · exact goTimeParseMDY_some_valid _ _ h

theorem parseRecord_ok_valid (loader : Loader) (record : List (List Char))
    (t : Transaction) (h : parseRecord loader record = .ok t) :
    t.id < 2 ^ 32
      ∧ 1 ≤ t.date.month ∧ t.date.month ≤ 12
      ∧ 1 ≤ t.date.day ∧ t.date.day ≤ daysIn t.date.month t.date.year := by
  unfold parseRecord at h
  split at h
  · rcases hid : parseIDOptimized _ with _ | id <;> rw [hid] at h
    · simp at h
    · rcases hdate : parseDateOptimized _ _ with _ | dt <;> rw [hdate] at h
      · simp at h
      · rcases hamt : parseAmountOptimized _ with _ | q <;> rw [hamt] at h
        · simp at h
        · simp only [Except.ok.injEq] at h
          subst h
          exact ⟨parseIDOptimized_some_lt _ _ hid,
            parseDateOptimized_some_valid _ _ _ hdate⟩
  · simp at h

theorem loadLoop_ok_mem (loader : Loader) (rows : List (List Char))
    (n : Nat) (ts : List Transaction) (h : loadLoop loader rows n = .ok ts) :
    ∀ t ∈ ts, ∃ record, parseRecord loader record = .ok t := by
  induction rows generalizing n ts with
  | nil =>
    unfold loadLoop at h
    simp only [Except.ok.injEq] at h
    subst h
    intro t ht
    exact absurd ht (List.not_mem_nil t)
  | cons line rest ih =>
    unfold loadLoop at h
    by_cases hb : line = []
    · rw [if_pos hb] at h
      exact ih n ts h
    · rw [if_neg hb] at h
      by_cases hf : (readFields line).length ≠ 3
      · rw [if_pos hf] at h; simp at h
      · rw [if_neg hf] at h
        rcases hp : parseRecord loader (readFields line) with fe | t0 <;>
          rw [hp] at h
        · simp at h
        · rcases hl : loadLoop loader rest (n + 1) with e | ts0 <;>
            rw [hl] at h
          · simp at h
          · simp only [Except.ok.injEq] at h
            subst h
            intro t ht
            rcases List.mem_cons.mp ht with rfl | ht2
            · exact ⟨readFields line, hp⟩
            · exact ih (n + 1) ts0 hl t ht2

/-- C2 (amended). Every transaction in a successful load has its date set to
a valid calendar date (month 1–12, day within the month) and an id that fits
in 32 bits; however the id is not necessarily non-zero — the counterexample
theorem for this claim shows the row `0,1/1,100` is accepted with id 0. A
failed load returns no transaction list at all. -/
theorem c2_loaded_transactions_valid (loader : Loader)
    (lines : List (List Char)) (ts : List Transaction)
    (h : loadTransactions loader lines = .ok ts) :
    ∀ t ∈ ts, t.id < 2 ^ 32
      ∧ 1 ≤ t.date.month ∧ t.date.month ≤ 12
      ∧ 1 ≤ t.date.day ∧ t.date.day ≤ daysIn t.date.month t.date.year := by
  unfold loadTransactions at h
  rcases hd : lines.dropWhile (fun l => l = []) with _ | ⟨hdr, rest⟩ <;>
    rw [hd] at h
  · simp at h
  · change (if (readFields hdr).length ≠ 3 then Except.error LoadError.header
      else loadLoop loader rest 2) = Except.ok ts at h
    by_cases hf : (readFields hdr).length ≠ 3
    · rw [if_pos hf] at h; simp at h
    · rw [if_neg hf] at h
      intro t ht
      obtain ⟨record, hrec⟩ := loadLoop_ok_mem loader rest 2 ts h t ht
      exact parseRecord_ok_valid loader record t hrec

/-- Witness for C2 (amended): the single transaction loaded from the row
`7,2/28,-5` has a 32-bit id and a valid calendar date. -/
theorem c2_loaded_transactions_valid_witness :
    (7 : Nat) < 2 ^ 32 ∧ 1 ≤ (GoDate.mk 2025 2 28).month
      ∧ (GoDate.mk 2025 2 28).month ≤ 12 ∧ 1 ≤ (GoDate.mk 2025 2 28).day
      ∧ (GoDate.mk 2025 2 28).day
          ≤ daysIn (GoDate.mk 2025 2 28).month (GoDate.mk 2025 2 28).year :=
  c2_loaded_transactions_valid ⟨2025⟩
    ["ID,Date,Transaction".data, "7,2/28,-5".data]
    [⟨7, ⟨2025, 2, 28⟩, -5, ""⟩] (by decide)
    ⟨7, ⟨2025, 2, 28⟩, -5, ""⟩ (by decide)

theorem loadLoop_all_ok (loader : Loader) (rows : List (List Char)) (n : Nat)
    (h : ∀ r ∈ rows, (parseLineTx loader r).isSome) :
    loadLoop loader rows n = .ok (rows.filterMap (parseLineTx loader)) := by
  induction rows generalizing n with
  | nil => rfl
  | cons line rest ih =>
    have hline := h line (List.mem_cons_self line rest)
    unfold parseLineTx at hline
    by_cases hb : line = []
    · rw [if_pos hb] at hline; simp at hline
    · rw [if_neg hb] at hline
      by_cases hf : (readFields line).length ≠ 3
      · rw [if_pos hf] at hline; simp at hline
      · rw [if_neg hf] at hline
        rcases hp : parseRecord loader (readFields line) with fe | t
        · rw [hp] at hline; simp [Except.toOption] at hline
        · have hlx : parseLineTx loader line = some t := by
            unfold parseLineTx
            rw [if_neg hb, if_neg hf, hp]; rfl
          unfold loadLoop
          rw [if_neg hb, if_neg hf, hp,
            ih (n + 1) (fun r hr => h r (List.mem_cons_of_mem _ hr)),
            List.filterMap_cons, hlx]

theorem filterMap_length_of_all_isSome {α β : Type} (f : α → Option β)
    (l : List α) (h : ∀ a ∈ l, (f a).isSome) :
    (l.filterMap f).length = l.length := by
  induction l with
  | nil => rfl
  | cons a as ih =>
    rcases ha : f a with _ | b
    · have := h a (List.mem_cons_self a as)
      rw [ha] at this; simp at this
    · rw [List.filterMap_cons, ha]
      simp [ih (fun x hx => h x (List.mem_cons_of_mem _ hx))]

/-- C3. For a well-formed input — a non-blank 3-field header followed by
data rows that each parse — the load succeeds and returns exactly the rows'
transactions, one per row in row order (`filterMap` over the per-row parse);
the header line contributes nothing regardless of its content, and with no
data rows the result is success with the empty list (in Go a `make`d,
non-nil slice). -/
theorem c3_row_count_and_order (loader : Loader) (header : List Char)
    (rows : List (List Char))
    (hheader : header ≠ [] ∧ (readFields header).length = 3)
    (hrows : ∀ r ∈ rows, (parseLineTx loader r).isSome) :
    loadTransactions loader (header :: rows)
        = .ok (rows.filterMap (parseLineTx loader))
    ∧ (rows.filterMap (parseLineTx loader)).length = rows.length := by
  refine ⟨?_, filterMap_length_of_all_isSome _ rows hrows⟩
  unfold loadTransactions
  rw [List.dropWhile_cons, if_neg (by simpa using hheader.1)]
  change (if (readFields header).length ≠ 3 then Except.error LoadError.header
    else loadLoop loader rows 2) = _
  rw [if_neg (by simp [hheader.2])]
  exact loadLoop_all_ok loader rows 2 hrows

/-- Witness for C3: a header that is itself a syntactically valid data row
(`1,7/15,+60.5`) is still discarded, and the single data row yields the
single output transaction. -/
theorem c3_row_count_and_order_witness :
    loadTransactions ⟨2025⟩ ["1,7/15,+60.5".data, "2,7/28,-10.3".data]
        = .ok (["2,7/28,-10.3".data].filterMap (parseLineTx ⟨2025⟩))
    ∧ (["2,7/28,-10.3".data].filterMap (parseLineTx ⟨2025⟩)).length
        = ["2,7/28,-10.3".data].length :=
  c3_row_count_and_order ⟨2025⟩ "1,7/15,+60.5".data ["2,7/28,-10.3".data]
    ⟨by decide, by decide⟩ (by decide)

/-- C4 (counterexample). With a completely blank line between the header and
the only invalid data line `x,1/1,5`, the invalid line sits at physical
1-based line 3, but the load error reports line 2: `csv.Reader` silently
skips blank lines while the loader's own `lineNumber` counter only advances
per record returned. -/
theorem c4_reported_line_not_physical :
    loadTransactions ⟨2025⟩
        ["ID,Date,Transaction".data, [], "x,1/1,5".data]
      = .error (.record 2 .id)
    ∧ firstInvalidDataLine ⟨2025⟩
        ["ID,Date,Transaction".data, [], "x,1/1,5".data] = some 3 :=
  ⟨by decide, by decide⟩

theorem loadLoop_first_invalid (loader : Loader) (pre : List (List Char))
    (bad : List Char) (rest : List (List Char)) (n : Nat)
    (hpre : ∀ r ∈ pre, r = [] ∨ (parseLineTx loader r).isSome)
    (hbadne : bad ≠ []) (hbad : parseLineTx loader bad = none) :
    ∃ e, loadLoop loader (pre ++ bad :: rest) n = .error e
      ∧ errorLine e = some (n + (pre.filter (fun r => r ≠ [])).length) := by
  induction pre generalizing n with
  | nil =>
    unfold parseLineTx at hbad
    rw [if_neg hbadne] at hbad
    simp only [List.nil_append, List.filter_nil, List.length_nil,
      Nat.add_zero]
    unfold loadLoop
    rw [if_neg hbadne]
    by_cases hf : (readFields bad).length ≠ 3
    · rw [if_pos hf]
      exact ⟨.csv n, rfl, rfl⟩
    · rw [if_neg hf] at hbad ⊢
      rcases hp : parseRecord loader (readFields bad) with fe | t
      · exact ⟨.record n fe, rfl, rfl⟩
      · rw [hp] at hbad; simp [Except.toOption] at hbad
  | cons r rs ih =>
    rcases hpre r (List.mem_cons_self r rs) with hblank | hsome
    · simp only [List.cons_append]
      unfold loadLoop
      rw [if_pos hblank]
      obtain ⟨e, he, hl⟩ := ih n (fun x hx => hpre x (List.mem_cons_of_mem _ hx))
      refine ⟨e, he, ?_⟩
      rw [hl]
      simp [List.filter_cons, hblank]
    · have hne : r ≠ [] := by
        intro hrnil
        rw [hrnil] at hsome
        unfold parseLineTx at hsome
        simp at hsome
      unfold parseLineTx at hsome
      rw [if_neg hne] at hsome
      by_cases hf : (readFields r).length ≠ 3
      · rw [if_pos hf] at hsome; simp at hsome
      · rw [if_neg hf] at hsome
        rcases hp : parseRecord loader (readFields r) with fe | t
        · rw [hp] at hsome; simp [Except.toOption] at hsome
        · simp only [List.cons_append]
          unfold loadLoop
          rw [if_neg hne, if_neg hf, hp]
          obtain ⟨e, he, hl⟩ :=
            ih (n + 1) (fun x hx => hpre x (List.mem_cons_of_mem _ hx))
          rw [he]
          refine ⟨e, rfl, ?_⟩
          have hfil : List.filter (fun x => decide (x ≠ [])) (r :: rs)
              = r :: List.filter (fun x => decide (x ≠ [])) rs := by
            simp [List.filter_cons, hne]
          rw [hl, hfil]
          simp only [List.length_cons, Option.some_inj]
          omega

/-- C4 (amended). The load aborts at the first non-blank invalid data line
with no transaction list, and the error's line number is 2 plus the number of
records parsed before it — which equals the physical 1-based line number
exactly when no completely blank lines precede the failing line (blank lines
are skipped by the CSV reader without advancing the loader's counter, as the
counterexample theorem for this claim shows). -/
theorem c4_first_invalid_line_aborts (loader : Loader) (header : List Char)
    (pre : List (List Char)) (bad : List Char) (rest : List (List Char))
    (hheader : header ≠ [] ∧ (readFields header).length = 3)
    (hpre : ∀ r ∈ pre, r = [] ∨ (parseLineTx loader r).isSome)
    (hbad : bad ≠ [] ∧ parseLineTx loader bad = none) :
    ∃ e, loadTransactions loader (header :: (pre ++ bad :: rest)) = .error e
      ∧ errorLine e = some (2 + (pre.filter (fun r => r ≠ [])).length) := by
  obtain ⟨e, he, hl⟩ :=
    loadLoop_first_invalid loader pre bad rest 2 hpre hbad.1 hbad.2
  refine ⟨e, ?_, hl⟩
  unfold loadTransactions
  rw [List.dropWhile_cons, if_neg (by simpa using hheader.1)]
  change (if (readFields header).length ≠ 3 then Except.error LoadError.header
    else loadLoop loader (pre ++ bad :: rest) 2) = Except.error e
  rw [if_neg (by simp [hheader.2]), he]

/-- Witness for C4 (amended): one valid record and one blank line precede
the invalid line `x,1/1,5`, so the reported line number is 2 + 1 = 3. -/
theorem c4_first_invalid_line_aborts_witness :
    ∃ e, loadTransactions ⟨2025⟩
        ("ID,Date,Transaction".data ::
          (["1,7/15,+60.5".data, []] ++ "x,1/1,5".data :: ["9,9/9,9".data]))
      = .error e
      ∧ errorLine e = some (2 +
          (["1,7/15,+60.5".data, ([] : List Char)].filter
            (fun r => r ≠ [])).length) :=
  c4_first_invalid_line_aborts ⟨2025⟩ "ID,Date,Transaction".data
    ["1,7/15,+60.5".data, []] "x,1/1,5".data ["9,9/9,9".data]
    ⟨by decide, by decide⟩ (by decide) ⟨by decide, by decide⟩

/-! ## Claims about the BatchPersister -/

theorem saveBatch_allAck (store : Store)
    (hack : ∀ n b, store.respond n b = []) (callIdx : Nat)
    (batch : List Transaction) :
    saveBatch store callIdx batch = (.ok (), [batch]) := by
  simp [saveBatch, hack]

theorem saveLoop_allAck (store : Store)
    (hack : ∀ n b, store.respond n b = []) (fuel : Nat) :
    ∀ (rest : List Transaction) (callIdx startIdx : Nat),
      rest.length ≤ fuel →
      (saveLoop store fuel callIdx startIdx rest).1 = .ok ()
      ∧ (saveLoop store fuel callIdx startIdx rest).2.flatten = rest
      ∧ (∀ b ∈ (saveLoop store fuel callIdx startIdx rest).2,
            b ≠ [] ∧ b.length ≤ 25)
      ∧ (saveLoop store fuel callIdx startIdx rest).2.length
          = (rest.length + 24) / 25 := by
  induction fuel with
  | zero =>
    intro rest callIdx startIdx hle
    have hnil : rest = [] := List.length_eq_zero.mp (Nat.le_zero.mp hle)
    subst hnil
    exact ⟨rfl, rfl, fun b hb => absurd hb (List.not_mem_nil b), rfl⟩
  | succ fuel ih =>
    intro rest callIdx startIdx hle
    rcases rest with _ | ⟨t, ts⟩
    · exact ⟨rfl, rfl, fun b hb => absurd hb (List.not_mem_nil b), rfl⟩
    · have hlen : ((t :: ts).drop 25).length ≤ fuel := by
        simp only [List.length_drop, List.length_cons]
        simp only [List.length_cons] at hle
        omega
      obtain ⟨ih1, ih2, ih3, ih4⟩ :=
        ih ((t :: ts).drop 25) (callIdx + 1) (startIdx + 25) hlen
      have hstep : saveLoop store (fuel + 1) callIdx startIdx (t :: ts)
          = ((saveLoop store fuel (callIdx + 1) (startIdx + 25)
                ((t :: ts).drop 25)).1,
             (t :: ts).take 25 ::
               (saveLoop store fuel (callIdx + 1) (startIdx + 25)
                 ((t :: ts).drop 25)).2) := by
        simp [saveLoop, saveBatch_allAck store hack]
      rw [hstep]
      refine ⟨ih1, ?_, ?_, ?_⟩
      · show (t :: ts).take 25 ++ _ = _
        rw [ih2, List.take_append_drop]
      · intro b hb
        rcases List.mem_cons.mp hb with rfl | hb2
        · exact ⟨by simp [List.take_succ_cons],
            List.length_take_le 25 (t :: ts)⟩
        · exact ih3 b hb2
      · show _ + 1 = _
        rw [ih4]
        simp only [List.length_drop, List.length_cons]
        omega

/-- C7. With a store that acknowledges every submission, `Save` on `N`
transactions succeeds and submits exactly `⌈N / 25⌉` batches, processed in
sequence: the submissions are non-empty consecutive slices of at most 25
items whose concatenation, in submission order, is the input list. -/
theorem c7_batching_ceil_calls (store : Store) (txns : List Transaction)
    (hack : ∀ n b, store.respond n b = []) :
    (SaveRun store txns).1 = .ok ()
    ∧ (SaveRun store txns).2.flatten = txns
    ∧ (∀ b ∈ (SaveRun store txns).2, b ≠ [] ∧ b.length ≤ 25)
    ∧ (SaveRun store txns).2.length = (txns.length + 24) / 25 := by
  unfold SaveRun
  rcases txns with _ | ⟨t, ts⟩
  · exact ⟨rfl, rfl, fun b hb => absurd hb (List.not_mem_nil b), rfl⟩
  · rw [if_neg (by simp)]
    exact saveLoop_allAck store hack (t :: ts).length (t :: ts) 0 0 le_rfl

/-- Witness for C7: 26 identical transactions against an
acknowledge-everything store are saved in exactly `⌈26 / 25⌉ = 2` batch
write calls. -/
theorem c7_batching_ceil_calls_witness :
    (SaveRun ⟨fun _ _ => []⟩
        (List.replicate 26 ⟨1, ⟨2024, 1, 1⟩, 5, ""⟩)).1 = .ok ()
    ∧ (SaveRun ⟨fun _ _ => []⟩
        (List.replicate 26 ⟨1, ⟨2024, 1, 1⟩, 5, ""⟩)).2.flatten
        = List.replicate 26 ⟨1, ⟨2024, 1, 1⟩, 5, ""⟩
    ∧ (∀ b ∈ (SaveRun ⟨fun _ _ => []⟩
          (List.replicate 26 ⟨1, ⟨2024, 1, 1⟩, 5, ""⟩)).2,
        b ≠ [] ∧ b.length ≤ 25)
    ∧ (SaveRun ⟨fun _ _ => []⟩
        (List.replicate 26 ⟨1, ⟨2024, 1, 1⟩, 5, ""⟩)).2.length
        = ((List.replicate 26
            (⟨1, ⟨2024, 1, 1⟩, 5, ""⟩ : Transaction)).length + 24) / 25 :=
  c7_batching_ceil_calls ⟨fun _ _ => []⟩
    (List.replicate 26 ⟨1, ⟨2024, 1, 1⟩, 5, ""⟩) (fun _ _ => rfl)

/-- C8. When the initial write of a batch comes back with unprocessed items,
every further submission for that batch is exactly the unprocessed subset the
previous call returned, with at most 3 retries (at most 4 submissions in
total, `expectedResubmissions`); and as soon as some retry reports nothing
unprocessed the batch succeeds — in particular with unprocessed items on the
first response and none on the first retry, the store is invoked exactly
twice for the batch. -/
theorem c8_retry_resubmits_unprocessed (store : Store)
    (batch : List Transaction) (h : store.respond 0 batch ≠ []) :
    (saveBatch store 0 batch).2 = expectedResubmissions store batch
    ∧ (saveBatch store 0 batch).2.length ≤ 4
    ∧ (store.respond 1 (store.respond 0 batch) = [] →
        (saveBatch store 0 batch).1 = .ok ()
        ∧ (saveBatch store 0 batch).2.length = 2) := by
  by_cases h1 : store.respond 1 (store.respond 0 batch) = []
  · have hsb : saveBatch store 0 batch
        = (.ok (), [batch, store.respond 0 batch]) := by
      simp [saveBatch, handleUnprocessedItems, retryUnprocessed, h, h1]
    rw [hsb]
    refine ⟨?_, by simp, fun _ => ⟨rfl, rfl⟩⟩
    simp [expectedResubmissions, h, h1]
  · by_cases h2 : store.respond 2 (store.respond 1 (store.respond 0 batch))
        = []
    · have hsb : saveBatch store 0 batch
          = (.ok (), [batch, store.respond 0 batch,
              store.respond 1 (store.respond 0 batch)]) := by
        simp [saveBatch, handleUnprocessedItems, retryUnprocessed, h, h1, h2]
      rw [hsb]
      refine ⟨?_, by simp, fun hh => absurd hh h1⟩
      simp [expectedResubmissions, h, h1, h2]
    · have hsb : (saveBatch store 0 batch).2
          = [batch, store.respond 0 batch,
             store.respond 1 (store.respond 0 batch),
             store.respond 2 (store.respond 1 (store.respond 0 batch))] := by
        simp [saveBatch, handleUnprocessedItems, retryUnprocessed, h, h1, h2]
      rw [hsb]
      refine ⟨?_, by simp, fun hh => absurd hh h1⟩
      simp [expectedResubmissions, h, h1, h2]

/-- Witness for C8: a store that leaves the last item of the initial call
unprocessed and acknowledges everything afterwards — the batch of two
transactions is submitted exactly twice and succeeds. -/
theorem c8_retry_resubmits_unprocessed_witness :
    (saveBatch ⟨fun n items => if n = 0 then items.drop 1 else []⟩ 0
        [⟨1, ⟨2024, 1, 1⟩, 5, ""⟩, ⟨2, ⟨2024, 1, 2⟩, 6, ""⟩]).2
      = expectedResubmissions
          ⟨fun n items => if n = 0 then items.drop 1 else []⟩
          [⟨1, ⟨2024, 1, 1⟩, 5, ""⟩, ⟨2, ⟨2024, 1, 2⟩, 6, ""⟩]
    ∧ (saveBatch ⟨fun n items => if n = 0 then items.drop 1 else []⟩ 0
        [⟨1, ⟨2024, 1, 1⟩, 5, ""⟩, ⟨2, ⟨2024, 1, 2⟩, 6, ""⟩]).2.length ≤ 4
    ∧ ((Store.mk fun n items => if n = 0 then items.drop 1 else []).respond 1
          ((Store.mk fun n items =>
            if n = 0 then items.drop 1 else []).respond 0
            [⟨1, ⟨2024, 1, 1⟩, 5, ""⟩, ⟨2, ⟨2024, 1, 2⟩, 6, ""⟩]) = [] →
        (saveBatch ⟨fun n items => if n = 0 then items.drop 1 else []⟩ 0
            [⟨1, ⟨2024, 1, 1⟩, 5, ""⟩, ⟨2, ⟨2024, 1, 2⟩, 6, ""⟩]).1 = .ok ()
        ∧ (saveBatch ⟨fun n items => if n = 0 then items.drop 1 else []⟩ 0
            [⟨1, ⟨2024, 1, 1⟩, 5, ""⟩,
             ⟨2, ⟨2024, 1, 2⟩, 6, ""⟩]).2.length = 2) :=
  c8_retry_resubmits_unprocessed
    ⟨fun n items => if n = 0 then items.drop 1 else []⟩
    [⟨1, ⟨2024, 1, 1⟩, 5, ""⟩, ⟨2, ⟨2024, 1, 2⟩, 6, ""⟩] (by decide)

/-- C9 (counterexample). With a store that never processes anything, saving
26 transactions fails on the first batch of 25 and reports 25 unwritten
items, although all 26 items of the call remain unwritten — the 26th was
never submitted. The reported count is the failing batch's final unprocessed
count, not a whole-call count. -/
theorem c9_count_is_batch_local :
    (SaveRun ⟨fun _ items => items⟩
        (List.replicate 26 ⟨1, ⟨2024, 1, 1⟩, 5, ""⟩)).1
      = .error (.batchFailed 0 (.unprocessed 3 25))
    ∧ reportedUnwritten (.batchFailed 0 (.unprocessed 3 25)) = 25
    ∧ (List.replicate 26 (⟨1, ⟨2024, 1, 1⟩, 5, ""⟩ : Transaction)).length
        = 26 :=
  ⟨by decide, rfl, by decide⟩

/-- C9 (amended). When all 3 retries of a batch still report unprocessed
items, the whole save fails after 4 submissions of that batch, and the
reported unwritten count is the number of items of that batch left
unprocessed by the final retry (batches never attempted are not included in
the count, and previously acknowledged batches are untouched — the
`Save`-level wrapping `batchFailed` preserves the count unchanged). -/
theorem c9_retry_exhaustion_reports_batch_count (store : Store)
    (batch : List Transaction)
    (h0 : store.respond 0 batch ≠ [])
    (h1 : store.respond 1 (store.respond 0 batch) ≠ [])
    (h2 : store.respond 2 (store.respond 1 (store.respond 0 batch)) ≠ [])
    (h3 : store.respond 3 (store.respond 2 (store.respond 1
            (store.respond 0 batch))) ≠ []) :
    (saveBatch store 0 batch).1
      = .error (.unprocessed 3 (store.respond 3 (store.respond 2
          (store.respond 1 (store.respond 0 batch)))).length)
    ∧ (saveBatch store 0 batch).2.length = 4
    ∧ (∀ startIdx, reportedUnwritten (.batchFailed startIdx
          (.unprocessed 3 (store.respond 3 (store.respond 2 (store.respond 1
            (store.respond 0 batch)))).length))
        = (store.respond 3 (store.respond 2 (store.respond 1
            (store.respond 0 batch)))).length) := by
  have hsb : saveBatch store 0 batch
      = (.error (.unprocessed 3 (store.respond 3 (store.respond 2
            (store.respond 1 (store.respond 0 batch)))).length),
         [batch, store.respond 0 batch,
          store.respond 1 (store.respond 0 batch),
          store.respond 2 (store.respond 1 (store.respond 0 batch))]) := by
    simp [saveBatch, handleUnprocessedItems, retryUnprocessed, h0, h1, h2,
      h3]
  rw [hsb]
  exact ⟨rfl, rfl, fun _ => rfl⟩

/-- Witness for C9 (amended): a batch of one transaction against the store
that never processes anything fails after 4 submissions reporting 1
unwritten item. -/
theorem c9_retry_exhaustion_reports_batch_count_witness :
    (saveBatch ⟨fun _ items => items⟩ 0 [⟨1, ⟨2024, 1, 1⟩, 5, ""⟩]).1
      = .error (.unprocessed 3 ((Store.mk fun _ items => items).respond 3
          ((Store.mk fun _ items => items).respond 2
            ((Store.mk fun _ items => items).respond 1
              ((Store.mk fun _ items => items).respond 0
                [⟨1, ⟨2024, 1, 1⟩, 5, ""⟩])))).length)
    ∧ (saveBatch ⟨fun _ items => items⟩ 0
        [⟨1, ⟨2024, 1, 1⟩, 5, ""⟩]).2.length = 4
    ∧ (∀ startIdx, reportedUnwritten (.batchFailed startIdx
          (.unprocessed 3 ((Store.mk fun _ items => items).respond 3
            ((Store.mk fun _ items => items).respond 2
              ((Store.mk fun _ items => items).respond 1
                ((Store.mk fun _ items => items).respond 0
                  [⟨1, ⟨2024, 1, 1⟩, 5, ""⟩])))).length))
        = ((Store.mk fun _ items => items).respond 3
            ((Store.mk fun _ items => items).respond 2
              ((Store.mk fun _ items => items).respond 1
                ((Store.mk fun _ items => items).respond 0
                  [⟨1, ⟨2024, 1, 1⟩, 5, ""⟩])))).length) :=
  c9_retry_exhaustion_reports_batch_count ⟨fun _ items => items⟩
    [⟨1, ⟨2024, 1, 1⟩, 5, ""⟩] (by decide) (by decide) (by decide)
    (by decide)
